import Mathlib

/-
  Verification of the ConvergeAI agent-orchestration layer
  (src/js/components/sidebar.js: AgentOrchestrator and SmartRoutingEngine).

  The JavaScript code is shallowly embedded: strings are lists of
  characters (so that the JS string primitives toLowerCase / trim /
  includes / default sort order can be modelled exactly), numbers that
  carry exact values (confidences, rates) are rationals, timestamps are
  integers (milliseconds), maps are association lists preserving JS Map
  insertion order, and the simulated asynchronous agent call is an
  oracle parameter giving each agent's outcome.
-/

namespace ConvergeAI

/- ---------------------------------------------------------------
   JS string primitives on lists of characters
   --------------------------------------------------------------- -/

-- Whitespace characters removed by String.prototype.trim (core set).
def isWsChar (c : Char) : Bool :=
  c = ' ' || c = '\t' || c = '\n' || c = '\r'

-- message.toLowerCase()
def toLowerStr (s : List Char) : List Char := s.map Char.toLower

-- message.trim(): drop leading and trailing whitespace.
def trimStr (s : List Char) : List Char :=
  (((s.dropWhile isWsChar).reverse).dropWhile isWsChar).reverse

-- hay.includes(needle): contiguous substring test.
def includesStr : List Char → List Char → Bool
  | [], needle => needle.isEmpty
  | c :: rest, needle => needle.isPrefixOf (c :: rest) || includesStr rest needle

-- Lexicographic code-unit comparison, as used by Array.prototype.sort()
-- with the default comparator on strings.
def strLeChars : List Char → List Char → Bool
  | [], _ => true
  | _ :: _, [] => false
  | a :: as, b :: bs => if a = b then strLeChars as bs else decide (a < b)

def jsLeRel (a b : String) : Prop := strLeChars a.data b.data = true

instance : DecidableRel jsLeRel := fun a b =>
  inferInstanceAs (Decidable (strLeChars a.data b.data = true))

-- agents.sort() with the default (string, code-unit) comparator.
def sortAgents (l : List String) : List String := List.insertionSort jsLeRel l

-- list.join(',')
def joinComma (l : List String) : String := String.intercalate "," l

/- ---------------------------------------------------------------
   Data model
   --------------------------------------------------------------- -/

inductive AgentStatus where
  | online
  | warning
  | offline
  | error
  deriving DecidableEq, Repr

structure Agent where
  name : String
  status : AgentStatus
  deriving DecidableEq, Repr

structure Source where
  name : String
  description : String
  deriving DecidableEq, Repr

-- queryData: { message, widgetId, agents?, context? }.  Missing fields
-- are `none`; a missing agents array behaves exactly like [] in every
-- consumer, so it is modelled as [].
structure QueryData where
  message : Option (List Char)
  widgetId : Option String
  agents : List String
  deriving DecidableEq, Repr

structure Response where
  content : String
  sources : List Source
  agents : List String
  confidence : ℚ
  synthesized : Bool
  error : Bool
  deriving DecidableEq, Repr

-- The raw object returned by a (simulated) agent API call; sources and
-- confidence may be absent (executeSingleQuery applies || defaults).
structure RawAgentResponse where
  content : String
  sources : Option (List Source)
  confidence : Option ℚ
  deriving DecidableEq, Repr

-- The object returned by executeSingleQuery on success.
structure AgentCallResult where
  content : String
  sources : List Source
  confidence : ℚ
  responseTime : ℚ
  deriving DecidableEq, Repr

-- { agentId, ...result.value } as assembled by executeParallelQueries.
structure AgentResult where
  agentId : String
  content : String
  sources : List Source
  confidence : ℚ
  responseTime : ℚ
  deriving DecidableEq, Repr

structure RoutingPlan where
  strategy : String
  agents : List String
  parallel : Bool
  timeout : ℕ
  deriving DecidableEq, Repr

structure Config where
  maxConcurrentQueries : ℕ
  defaultTimeout : ℕ
  retryAttempts : ℕ
  enableSmartRouting : Bool
  enableCaching : Bool
  deriving DecidableEq, Repr

-- AgentOrchestrator constructor configuration.
def defaultConfig : Config :=
  { maxConcurrentQueries := 10, defaultTimeout := 30000, retryAttempts := 3,
    enableSmartRouting := true, enableCaching := true }

-- this.cacheExpiry = 300000 (5 minutes, in ms).
def cacheExpiry : ℤ := 300000

structure CacheEntry where
  response : Response
  timestamp : ℤ
  queryData : QueryData
  deriving DecidableEq, Repr

abbrev Cache := List (List Char × CacheEntry)

structure Metrics where
  totalQueries : ℕ
  successfulQueries : ℕ
  averageResponseTime : ℚ
  errorRate : ℚ
  lastResponseTime : ℚ
  uptime : ℚ
  reliability : ℚ
  deriving DecidableEq, Repr

structure LogEntry where
  queryId : String
  timestamp : String
  message : List Char
  agents : List String
  responseAgents : List String
  duration : ℚ
  success : Bool
  confidence : ℚ
  synthesized : Bool
  cached : Bool
  deriving DecidableEq, Repr

/- ---------------------------------------------------------------
   SmartRoutingEngine
   --------------------------------------------------------------- -/

-- loadRoutingPatterns(): category -> trigger keywords, in Map insertion order.
def defaultPatterns : List (String × List (List Char)) :=
  [("hr", ["vacation".toList, "pto".toList, "time off".toList, "benefits".toList,
           "insurance".toList, "401k".toList, "payroll".toList, "salary".toList,
           "leave".toList, "holiday".toList, "sick day".toList]),
   ("policy", ["policy".toList, "procedure".toList, "guideline".toList, "rule".toList,
               "compliance".toList, "security".toList, "expense".toList,
               "reimbursement".toList, "training".toList]),
   ("finance", ["budget".toList, "cost".toList, "expense".toList, "financial".toList,
                "invoice".toList, "payment".toList, "accounting".toList,
                "revenue".toList, "forecast".toList]),
   ("knowledge", ["how to".toList, "what is".toList, "where can i".toList,
                  "documentation".toList, "manual".toList, "guide".toList,
                  "help".toList, "information".toList])]

-- loadAgentCapabilities(): agent id -> categories served, in insertion order.
def defaultCaps : List (String × List String) :=
  [("workday", ["hr", "vacation", "payroll", "benefits"]),
   ("policy", ["policy", "compliance", "procedures"]),
   ("healthcare", ["benefits", "insurance", "wellness"]),
   ("finance", ["budget", "expenses", "financial"])]

-- keywords.filter(k => lowerMessage.includes(k)).length
def matchCount (keywords : List (List Char)) (lowerMessage : List Char) : ℕ :=
  (keywords.filter (fun kw => includesStr lowerMessage kw)).length

-- scores.set(agentId, (scores.get(agentId) || 0) + matchCount): JS Map
-- semantics on an association list (update in place, new keys appended).
def bumpScore : List (String × ℕ) → String → ℕ → List (String × ℕ)
  | [], agentId, n => [(agentId, n)]
  | (b, s) :: rest, agentId, n =>
    if b = agentId then (b, s + n) :: rest else (b, s) :: bumpScore rest agentId n

-- Inner agentCapabilities.forEach loop for one matched category.
def scoreCategory (caps : List (String × List String)) (excludeAgents : List String)
    (category : String) (n : ℕ) (scores : List (String × ℕ)) : List (String × ℕ) :=
  caps.foldl
    (fun sc p =>
      if p.2.contains category && !(excludeAgents.contains p.1) then bumpScore sc p.1 n
      else sc)
    scores

-- Outer patterns.forEach loop building the score map.
def computeScores (patterns : List (String × List (List Char)))
    (caps : List (String × List String)) (lowerMessage : List Char)
    (excludeAgents : List String) : List (String × ℕ) :=
  patterns.foldl
    (fun sc p =>
      if 0 < matchCount p.2 lowerMessage then
        scoreCategory caps excludeAgents p.1 (matchCount p.2 lowerMessage) sc
      else sc)
    []

-- The comparator (a, b) => b[1] - a[1]: descending by score.
def scoreGE (a b : String × ℕ) : Prop := b.2 ≤ a.2

instance : DecidableRel scoreGE := fun a b => inferInstanceAs (Decidable (b.2 ≤ a.2))

-- Array.from(scores.entries()).sort((a, b) => b[1] - a[1]); stable sort,
-- as mandated for Array.prototype.sort.
def rankedScores (patterns : List (String × List (List Char)))
    (caps : List (String × List String)) (message : List Char)
    (excludeAgents : List String) : List (String × ℕ) :=
  List.insertionSort scoreGE (computeScores patterns caps (toLowerStr message) excludeAgents)

-- SmartRoutingEngine.recommendAgents(message, excludeAgents = [])
def recommendAgents (patterns : List (String × List (List Char)))
    (caps : List (String × List String)) (message : List Char)
    (excludeAgents : List String) : List String :=
  if (((rankedScores patterns caps message excludeAgents).map Prod.fst).take 3).isEmpty then
    ["workday", "policy"].filter (fun id => !(excludeAgents.contains id))
  else ((rankedScores patterns caps message excludeAgents).map Prod.fst).take 3

/- ---------------------------------------------------------------
   AgentOrchestrator
   --------------------------------------------------------------- -/

-- this.agents.get(agentId) on the agent Map.
def lookupAgent : List (String × Agent) → String → Option Agent
  | [], _ => none
  | (k, a) :: rest, agentId => if k = agentId then some a else lookupAgent rest agentId

-- The availability filter of createRoutingPlan's specified-agents path:
-- agent exists in the map and its status is 'online'.
def availableFor (agents : List (String × Agent)) (agentId : String) : Bool :=
  match lookupAgent agents agentId with
  | some a => decide (a.status = AgentStatus.online)
  | none => false

-- validateQuery(queryData)
def validateQuery (q : QueryData) : Bool :=
  q.message.isSome && q.widgetId.isSome &&
    (match q.message with
     | some m => decide (0 < (trimStr m).length)
     | none => false)

-- createRoutingPlan(queryData)
def createRoutingPlan (cfg : Config) (agents : List (String × Agent))
    (patterns : List (String × List (List Char))) (caps : List (String × List String))
    (q : QueryData) : Except String RoutingPlan :=
  if cfg.enableSmartRouting = false ∨ q.agents.isEmpty then
    Except.ok
      { strategy := "smart",
        agents := recommendAgents patterns caps (q.message.getD []) [],
        parallel := true, timeout := cfg.defaultTimeout }
  else
    if (q.agents.filter (availableFor agents)).isEmpty then
      Except.error "No available agents for this query"
    else
      Except.ok
        { strategy := "specified", agents := q.agents.filter (availableFor agents),
          parallel := decide (1 < (q.agents.filter (availableFor agents)).length),
          timeout := cfg.defaultTimeout }

-- executeSingleQuery(queryData, agentId).  The oracle gives the outcome
-- of the simulated callAgent; the second component records whether the
-- call was actually dispatched (callAgent reached).
def executeSingleQuery (oracle : String → Except String RawAgentResponse)
    (agents : List (String × Agent)) (responseTime : ℚ) (agentId : String) :
    Except String AgentCallResult × List String :=
  match lookupAgent agents agentId with
  | none => (Except.error ("Agent " ++ agentId ++ " not found"), [])
  | some a =>
    if a.status ≠ AgentStatus.online then
      (Except.error ("Agent " ++ agentId ++ " is not available"), [])
    else
      match oracle agentId with
      | Except.ok raw =>
        (Except.ok
          { content := raw.content, sources := raw.sources.getD [],
            confidence := raw.confidence.getD 0.8, responseTime := responseTime },
         [agentId])
      | Except.error e => (Except.error e, [agentId])

-- Whether executeSingleQuery succeeded for this agent.
def callOk (oracle : String → Except String RawAgentResponse)
    (agents : List (String × Agent)) (responseTime : ℚ) (agentId : String) : Bool :=
  match (executeSingleQuery oracle agents responseTime agentId).1 with
  | Except.ok _ => true
  | Except.error _ => false

-- Whether the call for this agent reaches callAgent (agent found & online).
def reachesAgentCall (agents : List (String × Agent)) (agentId : String) : Bool :=
  match lookupAgent agents agentId with
  | some a => decide (a.status = AgentStatus.online)
  | none => false

-- successfulResults of executeParallelQueries: the settled outcomes that
-- fulfilled without an error marker, with their agentId attached.
def parallelSuccesses (oracle : String → Except String RawAgentResponse)
    (agents : List (String × Agent)) (responseTime : ℚ)
    (planAgents : List String) : List AgentResult :=
  planAgents.filterMap (fun agentId =>
    match (executeSingleQuery oracle agents responseTime agentId).1 with
    | Except.ok v =>
      some { agentId := agentId, content := v.content, sources := v.sources,
             confidence := v.confidence, responseTime := v.responseTime }
    | Except.error _ => none)

-- All agents actually dispatched across the batch (each branch settles
-- independently: one failure cancels no sibling).
def dispatchedAgents (oracle : String → Except String RawAgentResponse)
    (agents : List (String × Agent)) (responseTime : ℚ)
    (planAgents : List String) : List String :=
  (planAgents.map (fun agentId => (executeSingleQuery oracle agents responseTime agentId).2)).flatten

-- this.agents.get(result.agentId)?.name || result.agentId
def agentLabel (agents : List (String × Agent)) (agentId : String) : String :=
  match lookupAgent agents agentId with
  | some a => if a.name = "" then agentId else a.name
  | none => agentId

-- allSources.filter((source, index, arr) => index === arr.findIndex(s => s.name === source.name))
def dedupByName (sources : List Source) : List Source :=
  (sources.enum.filter (fun p =>
    decide (sources.findIdx? (fun s => s.name == p.2.name) = some p.1))).map Prod.snd

-- synthesizeResponses(results, queryData)
def synthesizeResponses (agents : List (String × Agent))
    (results : List AgentResult) : Response :=
  match results with
  | [r] =>
    { content := r.content, sources := r.sources, agents := [r.agentId],
      confidence := r.confidence, synthesized := false, error := false }
  | rs =>
    { content := String.intercalate "\n\n"
        (rs.map (fun r => "**" ++ agentLabel agents r.agentId ++ ":** " ++ r.content)),
      sources := dedupByName (rs.foldl (fun acc r => acc ++ r.sources) []),
      agents := rs.map (fun r => r.agentId),
      confidence := (rs.foldl (fun sum r => sum + r.confidence) 0) / (rs.length : ℚ),
      synthesized := true, error := false }

-- executeParallelQueries(queryData, plan)
def executeParallelQueries (oracle : String → Except String RawAgentResponse)
    (agents : List (String × Agent)) (responseTime : ℚ)
    (planAgents : List String) : Except String Response × List String :=
  if (parallelSuccesses oracle agents responseTime planAgents).isEmpty then
    (Except.error "All agents failed to respond",
     dispatchedAgents oracle agents responseTime planAgents)
  else
    (Except.ok (synthesizeResponses agents (parallelSuccesses oracle agents responseTime planAgents)),
     dispatchedAgents oracle agents responseTime planAgents)

-- A single-agent result is delivered verbatim; the JS object has no
-- agents / synthesized / error fields, modelled as [] / false / false.
def singleToResponse (r : AgentCallResult) : Response :=
  { content := r.content, sources := r.sources, agents := [],
    confidence := r.confidence, synthesized := false, error := false }

-- executeQueryPlan(queryId, plan); plan.agents[0] on an empty list is
-- undefined in JS, making executeSingleQuery fail its Map lookup.
def executeQueryPlan (oracle : String → Except String RawAgentResponse)
    (agents : List (String × Agent)) (responseTime : ℚ)
    (plan : RoutingPlan) : Except String Response × List String :=
  if plan.parallel = true ∧ 1 < plan.agents.length then
    executeParallelQueries oracle agents responseTime plan.agents
  else
    match plan.agents with
    | [] => (Except.error "Agent undefined not found", [])
    | agentId :: _ =>
      ((executeSingleQuery oracle agents responseTime agentId).1.map singleToResponse,
       (executeSingleQuery oracle agents responseTime agentId).2)

-- updateAgentMetrics(agentId, responseTime, success) on one metrics record.
def updateAgentMetrics (m : Metrics) (responseTime : ℚ) (success : Bool) : Metrics :=
  let totalQueries := m.totalQueries + 1
  let successfulQueries := if success then m.successfulQueries + 1 else m.successfulQueries
  let averageResponseTime :=
    if success then
      (if m.averageResponseTime = 0 then responseTime
       else m.averageResponseTime * 0.8 + responseTime * 0.2)
    else m.averageResponseTime
  let errorRate := ((totalQueries : ℚ) - (successfulQueries : ℚ)) / (totalQueries : ℚ) * 100
  let responseTimeFactor := max 0 (100 - responseTime / 50)
  let reliability := max 0 ((100 - errorRate) * (responseTimeFactor / 100))
  { totalQueries := totalQueries, successfulQueries := successfulQueries,
    averageResponseTime := averageResponseTime, errorRate := errorRate,
    lastResponseTime := responseTime, uptime := m.uptime, reliability := reliability }

-- generateCacheKey(queryData): normalized message, '|', sorted agent ids
-- joined by ','.
def generateCacheKey (q : QueryData) : List Char :=
  trimStr (toLowerStr (q.message.getD [])) ++ '|' :: (joinComma (sortAgents q.agents)).data

-- Map.set on the response cache.
def setKey : Cache → List Char → CacheEntry → Cache
  | [], k, e => [(k, e)]
  | (k', e') :: rest, k, e =>
    if k' = k then (k, e) :: rest else (k', e') :: setKey rest k e

-- Map.get on the response cache.
def lookupKey : Cache → List Char → Option CacheEntry
  | [], _ => none
  | (k', e) :: rest, k => if k' = k then some e else lookupKey rest k

-- Map.delete on the response cache.
def eraseKey (cache : Cache) (k : List Char) : Cache :=
  cache.filter (fun p => decide (p.1 ≠ k))

-- cleanExpiredCache()
def cleanExpiredCache (now : ℤ) (cache : Cache) : Cache :=
  cache.filter (fun p => decide (now - p.2.timestamp ≤ cacheExpiry))

-- cacheResponse(queryData, response)
def cacheResponse (now : ℤ) (cache : Cache) (q : QueryData) (r : Response) : Cache :=
  cleanExpiredCache now
    (setKey cache (generateCacheKey q) { response := r, timestamp := now, queryData := q })

-- getCachedResponse(queryData): the hit is returned unless the entry age
-- strictly exceeds cacheExpiry, in which case it is lazily evicted.
def getCachedResponse (now : ℤ) (cache : Cache) (q : QueryData) :
    Option Response × Cache :=
  match lookupKey cache (generateCacheKey q) with
  | none => (none, cache)
  | some e =>
    if cacheExpiry < now - e.timestamp then (none, eraseKey cache (generateCacheKey q))
    else (some e.response, cache)

-- shouldCacheResponse(response)
def shouldCacheResponse (r : Response) : Bool :=
  !r.error && decide ((0.7 : ℚ) < r.confidence)

-- deliverErrorResponse(widgetId, error): the response object dispatched
-- on failure (confidence is absent in JS, i.e. 0 wherever it is read).
def errorResponse (msg : String) : Response :=
  { content := "I encountered an error processing your request: " ++ msg ++
      ". Please try again or contact support if the issue persists.",
    sources := [], agents := [], confidence := 0, synthesized := false, error := true }

-- What one processQuery run delivers and leaves behind.
structure ProcResult where
  widgetId : Option String
  response : Response
  dispatched : List String
  cache : Cache
  deriving DecidableEq, Repr

-- processQuery(queryData): validation, cache probe, routing, execution,
-- conditional cache insertion; every raised error is caught and turned
-- into a delivered error response.
def processQuery (cfg : Config) (now : ℤ) (agents : List (String × Agent))
    (patterns : List (String × List (List Char))) (caps : List (String × List String))
    (oracle : String → Except String RawAgentResponse) (responseTime : ℚ)
    (cache : Cache) (q : QueryData) : ProcResult :=
  if validateQuery q = false then
    { widgetId := q.widgetId, response := errorResponse "Invalid query format",
      dispatched := [], cache := cache }
  else
    match (if cfg.enableCaching then getCachedResponse now cache q else (none, cache)) with
    | (some r, cache1) =>
      { widgetId := q.widgetId, response := r, dispatched := [], cache := cache1 }
    | (none, cache1) =>
      match createRoutingPlan cfg agents patterns caps q with
      | Except.error e =>
        { widgetId := q.widgetId, response := errorResponse e,
          dispatched := [], cache := cache1 }
      | Except.ok plan =>
        match executeQueryPlan oracle agents responseTime plan with
        | (Except.error e, dispatched) =>
          { widgetId := q.widgetId, response := errorResponse e,
            dispatched := dispatched, cache := cache1 }
        | (Except.ok r, dispatched) =>
          { widgetId := q.widgetId, response := r, dispatched := dispatched,
            cache := if cfg.enableCaching && shouldCacheResponse r then
                       cacheResponse now cache1 q r
                     else cache1 }

-- logQuery(queryId, queryData, response, duration): push, then drop the
-- oldest entry when the history would exceed 1000.
def logQuery (history : List LogEntry) (entry : LogEntry) : List LogEntry :=
  if 1000 < (history ++ [entry]).length then (history ++ [entry]).tail
  else history ++ [entry]

/- ---------------------------------------------------------------
   Properties of the JS string-comparison order
   --------------------------------------------------------------- -/

theorem strLeChars_total : ∀ a b, strLeChars a b = true ∨ strLeChars b a = true := by
  intro a
  induction a with
  | nil => intro b; left; rfl
  | cons x xs ih =>
    intro b
    cases b with
    | nil => right; rfl
    | cons y ys =>
      by_cases hxy : x = y
      · subst hxy
        simp only [strLeChars, if_pos rfl]
        exact ih ys
      · rcases lt_or_gt_of_ne hxy with h | h
        · left; simp [strLeChars, hxy, h]
        · right
          have hyx : y ≠ x := fun hc => hxy hc.symm
          simp [strLeChars, hyx, h]

theorem strLeChars_trans :
    ∀ a b c, strLeChars a b = true → strLeChars b c = true → strLeChars a c = true := by
  intro a
  induction a with
  | nil => intro b c _ _; rfl
  | cons x xs ih =>
    intro b c hab hbc
    cases b with
    | nil => simp [strLeChars] at hab
    | cons y ys =>
      cases c with
      | nil => simp [strLeChars] at hbc
      | cons z zs =>
        simp only [strLeChars] at hab hbc ⊢
        by_cases hxy : x = y
        · subst hxy
          rw [if_pos rfl] at hab
          by_cases hyz : x = z
          · subst hyz
            rw [if_pos rfl] at hbc ⊢
            exact ih ys zs hab hbc
          · rw [if_neg hyz] at hbc ⊢
            exact hbc
        · rw [if_neg hxy] at hab
          have hxy' : x < y := by simpa using hab
          by_cases hyz : y = z
          · subst hyz
            rw [if_neg hxy]
            simpa using hxy'
          · rw [if_neg hyz] at hbc
            have hyz' : y < z := by simpa using hbc
            have hxz : x < z := lt_trans hxy' hyz'
            rw [if_neg (ne_of_lt hxz)]
            simpa using hxz

theorem strLeChars_antisymm :
    ∀ a b, strLeChars a b = true → strLeChars b a = true → a = b := by
  intro a
  induction a with
  | nil =>
    intro b _ hba
    cases b with
    | nil => rfl
    | cons y ys => simp [strLeChars] at hba
  | cons x xs ih =>
    intro b hab hba
    cases b with
    | nil => simp [strLeChars] at hab
    | cons y ys =>
      simp only [strLeChars] at hab hba
      by_cases hxy : x = y
      · subst hxy
        rw [if_pos rfl] at hab hba
        rw [ih ys hab hba]
      · rw [if_neg hxy] at hab
        have hyx : y ≠ x := fun hc => hxy hc.symm
        rw [if_neg hyx] at hba
        have h1 : x < y := by simpa using hab
        have h2 : y < x := by simpa using hba
        exact absurd h1 (not_lt_of_gt h2)

instance : IsTotal String jsLeRel := ⟨fun a b => strLeChars_total a.data b.data⟩

instance : IsTrans String jsLeRel :=
  ⟨fun a b c hab hbc => strLeChars_trans a.data b.data c.data hab hbc⟩

instance : IsAntisymm String jsLeRel := by
  constructor
  intro a b hab hba
  have h := strLeChars_antisymm a.data b.data hab hba
  cases a; cases b; exact congrArg String.mk h

-- Sorting with the JS comparator is order-insensitive in its input:
-- two permuted agent lists sort to the same list.
theorem sortAgents_perm_congr {l₁ l₂ : List String} (h : l₁.Perm l₂) :
    sortAgents l₁ = sortAgents l₂ := by
  apply List.eq_of_perm_of_sorted (r := jsLeRel)
  · exact (List.perm_insertionSort _ l₁).trans (h.trans (List.perm_insertionSort _ l₂).symm)
  · exact List.sorted_insertionSort _ l₁
  · exact List.sorted_insertionSort _ l₂

instance : IsTotal (String × ℕ) scoreGE := ⟨fun a b => Nat.le_total b.2 a.2⟩

instance : IsTrans (String × ℕ) scoreGE := ⟨fun _ _ _ h1 h2 => Nat.le_trans h2 h1⟩

/- ---------------------------------------------------------------
   Properties of trim and toLowerCase
   --------------------------------------------------------------- -/

theorem dropWhile_ws_append (ws t : List Char) (h : ∀ c ∈ ws, isWsChar c = true) :
    (ws ++ t).dropWhile isWsChar = t.dropWhile isWsChar := by
  induction ws with
  | nil => rfl
  | cons c cs ih =>
    have hc : isWsChar c = true := h c (List.mem_cons_self c cs)
    simp only [List.cons_append, List.dropWhile_cons, hc, if_true]
    exact ih fun d hd => h d (List.mem_cons_of_mem c hd)

theorem dropWhile_ws_nil (ws : List Char) (h : ∀ c ∈ ws, isWsChar c = true) :
    ws.dropWhile isWsChar = [] := by
  have := dropWhile_ws_append ws [] h
  simpa using this

theorem trimStr_ws_append (m ws₁ ws₂ : List Char)
    (h₁ : ∀ c ∈ ws₁, isWsChar c = true) (h₂ : ∀ c ∈ ws₂, isWsChar c = true) :
    trimStr (ws₁ ++ m ++ ws₂) = trimStr m := by
  unfold trimStr
  rw [List.append_assoc, dropWhile_ws_append ws₁ (m ++ ws₂) h₁]
  rcases hd : m.dropWhile isWsChar with _ | ⟨c, cs⟩
  · rw [List.dropWhile_append, hd]
    simp only [List.isEmpty_nil, if_true]
    rw [dropWhile_ws_nil ws₂ h₂]
  · rw [List.dropWhile_append, hd]
    rw [if_neg (by simp)]
    rw [List.reverse_append]
    rw [dropWhile_ws_append ws₂.reverse (c :: cs).reverse
      (fun d hd' => h₂ d (List.mem_reverse.mp hd'))]

theorem toLower_ws (c : Char) (h : isWsChar c = true) : Char.toLower c = c := by
  have hc : ((c = ' ' ∨ c = '\t') ∨ c = '\n') ∨ c = '\r' := by
    simpa [isWsChar] using h
  rcases hc with ((rfl | rfl) | rfl) | rfl <;> decide

theorem toLowerStr_ws (ws : List Char) (h : ∀ c ∈ ws, isWsChar c = true) :
    ∀ c ∈ toLowerStr ws, isWsChar c = true := by
  intro c hc
  rw [toLowerStr, List.mem_map] at hc
  obtain ⟨d, hd, rfl⟩ := hc
  rw [toLower_ws d (h d hd)]
  exact h d hd

/- ---------------------------------------------------------------
   Properties of the response cache association list
   --------------------------------------------------------------- -/

theorem mem_setKey {cache : Cache} {k : List Char} {e : CacheEntry} {p : List Char × CacheEntry}
    (hp : p ∈ setKey cache k e) : p = (k, e) ∨ p ∈ cache := by
  induction cache with
  | nil => simpa [setKey] using hp
  | cons q rest ih =>
    obtain ⟨k', e'⟩ := q
    by_cases hk : k' = k
    · simp only [setKey, if_pos hk] at hp
      rcases List.mem_cons.mp hp with hp | hp
      · exact Or.inl hp
      · exact Or.inr (List.mem_cons_of_mem _ hp)
    · simp only [setKey, if_neg hk] at hp
      rcases List.mem_cons.mp hp with hp | hp
      · exact Or.inr (hp ▸ List.mem_cons_self _ _)
      · rcases ih hp with h | h
        · exact Or.inl h
        · exact Or.inr (List.mem_cons_of_mem _ h)

theorem mem_eraseKey {cache : Cache} {k : List Char} {p : List Char × CacheEntry}
    (hp : p ∈ eraseKey cache k) : p ∈ cache :=
  (List.mem_filter.mp hp).1

theorem mem_cleanExpiredCache {now : ℤ} {cache : Cache} {p : List Char × CacheEntry}
    (hp : p ∈ cleanExpiredCache now cache) : p ∈ cache :=
  (List.mem_filter.mp hp).1

theorem lookupKey_eraseKey (cache : Cache) (k : List Char) :
    lookupKey (eraseKey cache k) k = none := by
  induction cache with
  | nil => rfl
  | cons q rest ih =>
    obtain ⟨k', e'⟩ := q
    by_cases hk : k' = k
    · subst hk
      have he : eraseKey ((k', e') :: rest) k' = eraseKey rest k' := by
        simp [eraseKey, List.filter_cons]
      rw [he]
      exact ih
    · have he : eraseKey ((k', e') :: rest) k = (k', e') :: eraseKey rest k := by
        simp [eraseKey, List.filter_cons, hk]
      rw [he]
      simp only [lookupKey, if_neg hk]
      exact ih

theorem lookupKey_cacheResponse (now : ℤ) (cache : Cache) (q : QueryData) (r : Response) :
    lookupKey (cacheResponse now cache q r) (generateCacheKey q) =
      some { response := r, timestamp := now, queryData := q } := by
  unfold cacheResponse
  have hkeep : decide (now - now ≤ cacheExpiry) = true := by
    simp [cacheExpiry]
  generalize generateCacheKey q = k
  induction cache with
  | nil =>
    simp [setKey, cleanExpiredCache, List.filter_cons, hkeep, lookupKey]
  | cons p rest ih =>
    obtain ⟨k', e'⟩ := p
    by_cases hk : k' = k
    · simp only [setKey, if_pos hk]
      simp [cleanExpiredCache, List.filter_cons, hkeep, lookupKey]
    · simp only [setKey, if_neg hk]
      simp only [cleanExpiredCache, List.filter_cons] at ih ⊢
      cases hdec : decide (now - e'.timestamp ≤ cacheExpiry)
      · simpa [hdec] using ih
      · simpa [hdec, lookupKey, hk] using ih

theorem getCachedResponse_snd_subset {now : ℤ} {cache : Cache} {q : QueryData}
    {p : List Char × CacheEntry}
    (hp : p ∈ (getCachedResponse now cache q).2) : p ∈ cache := by
  unfold getCachedResponse at hp
  rcases hlk : lookupKey cache (generateCacheKey q) with _ | e
  · rw [hlk] at hp
    exact hp
  · simp only [hlk] at hp
    by_cases hexp : cacheExpiry < now - e.timestamp
    · rw [if_pos hexp] at hp
      exact mem_eraseKey hp
    · rw [if_neg hexp] at hp
      exact hp

theorem getCachedResponse_of_lookup_none {now : ℤ} {cache : Cache} {q : QueryData}
    (h : lookupKey cache (generateCacheKey q) = none) :
    getCachedResponse now cache q = (none, cache) := by
  unfold getCachedResponse
  rw [h]

/- ---------------------------------------------------------------
   Score-map lemmas for the routing engine
   --------------------------------------------------------------- -/

theorem mem_fst_bumpScore {sc : List (String × ℕ)} {a x : String} {n : ℕ}
    (hx : x ∈ (bumpScore sc a n).map Prod.fst) :
    x ∈ sc.map Prod.fst ∨ x = a := by
  induction sc with
  | nil =>
    right
    simpa [bumpScore] using hx
  | cons p rest ih =>
    obtain ⟨b, s⟩ := p
    by_cases hb : b = a
    · simp only [bumpScore, if_pos hb] at hx
      simp only [List.map_cons, List.mem_cons] at hx ⊢
      exact Or.inl hx
    · simp only [bumpScore, if_neg hb] at hx
      simp only [List.map_cons, List.mem_cons] at hx
      rcases hx with rfl | hx
      · left
        simp
      · rcases ih hx with h | h
        · left
          simp only [List.map_cons, List.mem_cons]
          exact Or.inr h
        · right
          exact h

theorem mem_fst_scoreCategory {excl : List String} {cat : String} {n : ℕ} :
    ∀ {caps : List (String × List String)} {sc : List (String × ℕ)} {x : String},
      x ∈ (scoreCategory caps excl cat n sc).map Prod.fst →
      x ∈ sc.map Prod.fst ∨
        ∃ capsA, (x, capsA) ∈ caps ∧ capsA.contains cat = true ∧ excl.contains x = false := by
  intro caps
  induction caps with
  | nil =>
    intro sc x hx
    exact Or.inl (by simpa [scoreCategory] using hx)
  | cons p rest ih =>
    intro sc x hx
    simp only [scoreCategory, List.foldl_cons] at hx
    have hx' : x ∈ (scoreCategory rest excl cat n
        (if p.2.contains cat && !(excl.contains p.1) then bumpScore sc p.1 n else sc)).map
          Prod.fst := by
      simp only [scoreCategory]
      exact hx
    rcases ih hx' with h | h
    · by_cases hcond : (p.2.contains cat && !(excl.contains p.1)) = true
      · rw [if_pos hcond] at h
        rcases mem_fst_bumpScore h with h' | h'
        · exact Or.inl h'
        · right
          simp only [Bool.and_eq_true] at hcond
          obtain ⟨hc1, hc2⟩ := hcond
          refine ⟨p.2, ?_, hc1, ?_⟩
          · rw [h']
            exact (by cases p; exact List.mem_cons_self _ _)
          · rw [h']
            simpa using hc2
      · rw [if_neg hcond] at h
        exact Or.inl h
    · obtain ⟨capsA, hmem, hc1, hc2⟩ := h
      exact Or.inr ⟨capsA, List.mem_cons_of_mem _ hmem, hc1, hc2⟩

theorem mem_fst_computeScores_aux {caps : List (String × List String)}
    {excl : List String} {lower : List Char} :
    ∀ {patterns : List (String × List (List Char))} {sc : List (String × ℕ)} {x : String},
      x ∈ (patterns.foldl
            (fun sc p =>
              if 0 < matchCount p.2 lower then
                scoreCategory caps excl p.1 (matchCount p.2 lower) sc
              else sc) sc).map Prod.fst →
      x ∈ sc.map Prod.fst ∨
        ∃ cat kws, (cat, kws) ∈ patterns ∧ 0 < matchCount kws lower ∧
          ∃ capsA, (x, capsA) ∈ caps ∧ capsA.contains cat = true ∧
            excl.contains x = false := by
  intro patterns
  induction patterns with
  | nil =>
    intro sc x hx
    exact Or.inl (by simpa using hx)
  | cons p rest ih =>
    intro sc x hx
    rw [List.foldl_cons] at hx
    rcases ih hx with h | h
    · by_cases hc : 0 < matchCount p.2 lower
      · rw [if_pos hc] at h
        rcases mem_fst_scoreCategory h with h' | h'
        · exact Or.inl h'
        · obtain ⟨capsA, hm, h1, h2⟩ := h'
          exact Or.inr ⟨p.1, p.2, (by cases p; exact List.mem_cons_self _ _), hc,
            capsA, hm, h1, h2⟩
      · rw [if_neg hc] at h
        exact Or.inl h
    · obtain ⟨cat, kws, hm, hc, hrest⟩ := h
      exact Or.inr ⟨cat, kws, List.mem_cons_of_mem _ hm, hc, hrest⟩

theorem mem_fst_computeScores {patterns : List (String × List (List Char))}
    {caps : List (String × List String)} {lower : List Char} {excl : List String} {x : String}
    (hx : x ∈ (computeScores patterns caps lower excl).map Prod.fst) :
    ∃ cat kws, (cat, kws) ∈ patterns ∧ 0 < matchCount kws lower ∧
      ∃ capsA, (x, capsA) ∈ caps ∧ capsA.contains cat = true ∧
        excl.contains x = false := by
  unfold computeScores at hx
  rcases mem_fst_computeScores_aux hx with h | h
  · simp at h
  · exact h

theorem rankedScores_sorted (patterns : List (String × List (List Char)))
    (caps : List (String × List String)) (message : List Char) (excl : List String) :
    List.Sorted scoreGE (rankedScores patterns caps message excl) :=
  List.sorted_insertionSort _ _

theorem recommendAgents_ne_nil (patterns : List (String × List (List Char)))
    (caps : List (String × List String)) (message : List Char) :
    recommendAgents patterns caps message [] ≠ [] := by
  unfold recommendAgents
  by_cases h : (((rankedScores patterns caps message []).map Prod.fst).take 3).isEmpty = true
  · rw [if_pos h]
    decide
  · rw [if_neg h]
    intro hc
    exact h (by rw [hc]; rfl)

theorem recommendAgents_length_le (patterns : List (String × List (List Char)))
    (caps : List (String × List String)) (message : List Char) (excl : List String) :
    (recommendAgents patterns caps message excl).length ≤ 3 := by
  unfold recommendAgents
  split
  · calc (["workday", "policy"].filter (fun id => !(excl.contains id))).length
        ≤ (["workday", "policy"] : List String).length := List.length_filter_le _ _
      _ ≤ 3 := by decide
  · calc ((((rankedScores patterns caps message excl).map Prod.fst).take 3)).length
        ≤ 3 := by
          rw [List.length_take]
          exact min_le_left _ _

theorem recommendAgents_mem_capability {patterns : List (String × List (List Char))}
    {caps : List (String × List String)} {message : List Char} {a : String}
    (hsc : computeScores patterns caps (toLowerStr message) [] ≠ [])
    (ha : a ∈ recommendAgents patterns caps message []) :
    ∃ cat kws, (cat, kws) ∈ patterns ∧ 0 < matchCount kws (toLowerStr message) ∧
      ∃ capsA, (a, capsA) ∈ caps ∧ capsA.contains cat = true := by
  have hperm : (rankedScores patterns caps message []).Perm
      (computeScores patterns caps (toLowerStr message) []) :=
    List.perm_insertionSort _ _
  have hne : ¬(((rankedScores patterns caps message []).map Prod.fst).take 3).isEmpty = true := by
    intro hc
    rw [List.isEmpty_iff] at hc
    rcases List.take_eq_nil_iff.mp hc with h3 | hmap
    · exact absurd h3 (by decide)
    · rw [List.map_eq_nil_iff] at hmap
      rw [hmap] at hperm
      exact hsc (List.Perm.eq_nil hperm.symm)
  unfold recommendAgents at ha
  rw [if_neg hne] at ha
  have ha' : a ∈ (rankedScores patterns caps message []).map Prod.fst :=
    List.take_subset _ _ ha
  have ha'' : a ∈ (computeScores patterns caps (toLowerStr message) []).map Prod.fst :=
    (hperm.map Prod.fst).mem_iff.mp ha'
  rcases mem_fst_computeScores ha'' with ⟨cat, kws, h1, h2, capsA, h3, h4, _⟩
  exact ⟨cat, kws, h1, h2, capsA, h3, h4⟩

/- ---------------------------------------------------------------
   Dispatch lemmas for parallel execution
   --------------------------------------------------------------- -/

theorem executeSingleQuery_snd (oracle : String → Except String RawAgentResponse)
    (agents : List (String × Agent)) (rt : ℚ) (agentId : String) :
    (executeSingleQuery oracle agents rt agentId).2 =
      if reachesAgentCall agents agentId then [agentId] else [] := by
  cases hla : lookupAgent agents agentId with
  | none => simp [executeSingleQuery, reachesAgentCall, hla]
  | some a =>
    by_cases hs : a.status = AgentStatus.online
    · cases hor : oracle agentId <;>
        simp [executeSingleQuery, reachesAgentCall, hla, hs, hor]
    · simp [executeSingleQuery, reachesAgentCall, hla, hs]

theorem dispatchedAgents_eq_filter (oracle : String → Except String RawAgentResponse)
    (agents : List (String × Agent)) (rt : ℚ) (planAgents : List String) :
    dispatchedAgents oracle agents rt planAgents =
      planAgents.filter (reachesAgentCall agents) := by
  induction planAgents with
  | nil => rfl
  | cons a rest ih =>
    simp only [dispatchedAgents, List.map_cons, List.flatten_cons] at ih ⊢
    rw [executeSingleQuery_snd, List.filter_cons]
    by_cases hr : reachesAgentCall agents a = true
    · simp [hr, ih]
    · simp [hr, ih]

theorem parallelSuccesses_eq_nil_iff (oracle : String → Except String RawAgentResponse)
    (agents : List (String × Agent)) (rt : ℚ) (planAgents : List String) :
    parallelSuccesses oracle agents rt planAgents = [] ↔
      ∀ a ∈ planAgents, callOk oracle agents rt a = false := by
  unfold parallelSuccesses
  rw [List.filterMap_eq_nil_iff]
  constructor
  · intro h a ha
    have hfa := h a ha
    unfold callOk
    cases hc : (executeSingleQuery oracle agents rt a).1 with
    | error e => rfl
    | ok v =>
      rw [hc] at hfa
      simp at hfa
  · intro h a ha
    have hok := h a ha
    unfold callOk at hok
    cases hc : (executeSingleQuery oracle agents rt a).1 with
    | error e => rfl
    | ok v =>
      rw [hc] at hok
      simp at hok

theorem isEmpty_iff_eq_nil {α : Type} {l : List α} : l.isEmpty = true ↔ l = [] := by
  cases l <;> simp

theorem foldl_add_confidence (rs : List AgentResult) :
    ∀ init : ℚ, rs.foldl (fun sum r => sum + r.confidence) init =
      init + (rs.map (fun r => r.confidence)).sum := by
  induction rs with
  | nil => intro init; simp
  | cons r rest ih =>
    intro init
    simp only [List.foldl_cons, List.map_cons, List.sum_cons, ih]
    ring

-- The cache-insertion predicate, spelled out as a proposition.
def goodResponse (r : Response) : Prop := r.error = false ∧ (0.7 : ℚ) < r.confidence

theorem shouldCacheResponse_iff (r : Response) :
    shouldCacheResponse r = true ↔ goodResponse r := by
  unfold shouldCacheResponse goodResponse
  cases hr : r.error <;> simp [hr]

theorem mem_parallelSuccesses {oracle : String → Except String RawAgentResponse}
    {agents : List (String × Agent)} {rt : ℚ} {planAgents : List String} {r : AgentResult}
    (hr : r ∈ parallelSuccesses oracle agents rt planAgents) :
    r.agentId ∈ planAgents ∧ callOk oracle agents rt r.agentId = true := by
  unfold parallelSuccesses at hr
  rcases List.mem_filterMap.mp hr with ⟨a, ha, hfa⟩
  cases hc : (executeSingleQuery oracle agents rt a).1 with
  | error e =>
    rw [hc] at hfa
    simp at hfa
  | ok v =>
    rw [hc] at hfa
    obtain rfl := Option.some.inj hfa
    refine ⟨ha, ?_⟩
    unfold callOk
    rw [hc]

/- ---------------------------------------------------------------
   Concrete fixtures used by witnesses and counterexamples
   --------------------------------------------------------------- -/

def failOracle : String → Except String RawAgentResponse := fun _ => Except.error "boom"

def agentsOnlineA : List (String × Agent) :=
  [("a", { name := "Agent A", status := AgentStatus.online })]

def offlineWorkday : List (String × Agent) :=
  [("workday", { name := "Workday", status := AgentStatus.offline })]

def ghostAgents : List (String × Agent) :=
  [("ghost", { name := "Ghost", status := AgentStatus.offline })]

def qVacation : QueryData :=
  { message := some "vacation".toList, widgetId := some "w1", agents := [] }

def qGhost : QueryData :=
  { message := some "hi".toList, widgetId := some "w1", agents := ["ghost"] }

def qBlank : QueryData :=
  { message := some "   ".toList, widgetId := some "w1", agents := [] }

def qHi : QueryData :=
  { message := some "hi".toList, widgetId := some "w1", agents := [] }

def qHiPadded : QueryData :=
  { message := some ([' '] ++ "hi".toList ++ [' ']), widgetId := some "w1", agents := [] }

def respCached : Response :=
  { content := "r", sources := [], agents := [], confidence := 0.9,
    synthesized := false, error := false }

def cacheOne : Cache :=
  [(generateCacheKey qHi, { response := respCached, timestamp := 0, queryData := qHi })]

def resA : AgentResult :=
  { agentId := "a1", content := "c1", sources := [⟨"A", "d1"⟩],
    confidence := 0.8, responseTime := 0 }

def resB : AgentResult :=
  { agentId := "a2", content := "c2", sources := [⟨"A", "d2"⟩, ⟨"B", "d3"⟩],
    confidence := 0.6, responseTime := 0 }

def entryLog : LogEntry :=
  { queryId := "q1", timestamp := "t", message := [], agents := [],
    responseAgents := [], duration := 0, success := true, confidence := 0,
    synthesized := false, cached := false }

/- ---------------------------------------------------------------
   Claim theorems
   --------------------------------------------------------------- -/

/-- Claim C8: updateAgentMetrics maintains the average response time as an
exponential moving average with fixed smoothing factor 0.2 on a successful
call (the first sample is taken verbatim when the previous average is 0),
sets the error rate to (totalQueries - successfulQueries) / totalQueries
times 100 over the updated counters, and combines the inverted error rate
with the response-time penalty factor max 0 (100 - responseTime / 50),
scaled by 1/100, into the reliability score. -/
theorem updateAgentMetrics_spec (m : Metrics) (rt : ℚ) :
    ((updateAgentMetrics m rt true).averageResponseTime =
        if m.averageResponseTime = 0 then rt
        else m.averageResponseTime * 0.8 + rt * 0.2) ∧
    (∀ s : Bool, (updateAgentMetrics m rt s).errorRate =
        (((updateAgentMetrics m rt s).totalQueries : ℚ) -
            ((updateAgentMetrics m rt s).successfulQueries : ℚ)) /
          ((updateAgentMetrics m rt s).totalQueries : ℚ) * 100) ∧
    (∀ s : Bool, (updateAgentMetrics m rt s).reliability =
        max 0 ((100 - (updateAgentMetrics m rt s).errorRate) *
          (max 0 (100 - rt / 50) / 100))) ∧
    (updateAgentMetrics m rt true).totalQueries = m.totalQueries + 1 ∧
    (updateAgentMetrics m rt true).successfulQueries = m.successfulQueries + 1 ∧
    (updateAgentMetrics m rt false).successfulQueries = m.successfulQueries ∧
    (updateAgentMetrics m rt false).averageResponseTime = m.averageResponseTime :=
  ⟨rfl, fun _ => rfl, fun _ => rfl, rfl, rfl, rfl, rfl⟩

/-- Claim C10: after every call to logQuery the query history holds at most
1000 entries: the new entry is appended and, when the length would exceed
1000, the oldest (front) entry is removed, so the bound is preserved. -/
theorem logQuery_length_bound (history : List LogEntry) (entry : LogEntry)
    (h : history.length ≤ 1000) : (logQuery history entry).length ≤ 1000 := by
  unfold logQuery
  by_cases hl : 1000 < (history ++ [entry]).length
  · rw [if_pos hl, List.length_tail, List.length_append]
    simpa using h
  · rw [if_neg hl]
    exact le_of_not_lt hl

theorem logQuery_length_bound_witness :
    ([] : List LogEntry).length ≤ 1000 ∧ (logQuery [] entryLog).length ≤ 1000 :=
  ⟨by decide, logQuery_length_bound [] entryLog (by decide)⟩

/-- Claim C4: synthesizeResponses passes a single result through unchanged
with synthesized = false; for two or more results it de-duplicates the
concatenated source lists by name keeping the first occurrence, averages
the per-agent confidences arithmetically, and sets synthesized = true; on
sources named A, A, B the de-duplication yields exactly A, B. -/
theorem synthesizeResponses_spec (agents : List (String × Agent)) :
    (∀ r : AgentResult,
        synthesizeResponses agents [r] =
          { content := r.content, sources := r.sources, agents := [r.agentId],
            confidence := r.confidence, synthesized := false, error := false }) ∧
    (∀ rs : List AgentResult, 2 ≤ rs.length →
        (synthesizeResponses agents rs).sources =
            dedupByName (rs.foldl (fun acc r => acc ++ r.sources) []) ∧
          (synthesizeResponses agents rs).confidence =
            (rs.map (fun r => r.confidence)).sum / (rs.length : ℚ) ∧
          (synthesizeResponses agents rs).synthesized = true) ∧
    dedupByName [⟨"A", "d1"⟩, ⟨"A", "d2"⟩, ⟨"B", "d3"⟩] = [⟨"A", "d1"⟩, ⟨"B", "d3"⟩] := by
  refine ⟨fun r => rfl, ?_, by decide⟩
  intro rs h2
  rcases rs with _ | ⟨r1, _ | ⟨r2, rest⟩⟩
  · simp at h2
  · simp at h2
  · refine ⟨rfl, ?_, rfl⟩
    show (r1 :: r2 :: rest).foldl (fun sum r => sum + r.confidence) 0 /
        (((r1 :: r2 :: rest).length : ℕ) : ℚ) = _
    rw [foldl_add_confidence, zero_add]

theorem synthesizeResponses_spec_witness :
    2 ≤ ([resA, resB] : List AgentResult).length ∧
    (synthesizeResponses [] [resA, resB]).sources = [⟨"A", "d1"⟩, ⟨"B", "d3"⟩] ∧
    (synthesizeResponses [] [resA, resB]).synthesized = true := by
  refine ⟨by decide, ?_, ((synthesizeResponses_spec []).2.1 [resA, resB] (by decide)).2.2⟩
  have h := ((synthesizeResponses_spec []).2.1 [resA, resB] (by decide)).1
  rw [h]
  decide

/-- Claim C9: generateCacheKey is insensitive to the order of the agent
list (it is sorted before joining), to letter case in the message, and to
leading or trailing whitespace around the message. -/
theorem generateCacheKey_insensitive :
    (∀ (m : Option (List Char)) (w : Option String) (a₁ a₂ : List String),
        a₁.Perm a₂ →
        generateCacheKey { message := m, widgetId := w, agents := a₁ } =
          generateCacheKey { message := m, widgetId := w, agents := a₂ }) ∧
    (∀ (m₁ m₂ : List Char) (w : Option String) (a : List String),
        toLowerStr m₁ = toLowerStr m₂ →
        generateCacheKey { message := some m₁, widgetId := w, agents := a } =
          generateCacheKey { message := some m₂, widgetId := w, agents := a }) ∧
    (∀ (m ws₁ ws₂ : List Char) (w : Option String) (a : List String),
        (∀ c ∈ ws₁, isWsChar c = true) → (∀ c ∈ ws₂, isWsChar c = true) →
        generateCacheKey { message := some (ws₁ ++ m ++ ws₂), widgetId := w, agents := a } =
          generateCacheKey { message := some m, widgetId := w, agents := a }) := by
  refine ⟨?_, ?_, ?_⟩
  · intro m w a₁ a₂ hperm
    unfold generateCacheKey
    rw [sortAgents_perm_congr hperm]
  · intro m₁ m₂ w a h
    unfold generateCacheKey
    show trimStr (toLowerStr m₁) ++ _ = trimStr (toLowerStr m₂) ++ _
    rw [h]
  · intro m ws₁ ws₂ w a h₁ h₂
    unfold generateCacheKey
    show trimStr (toLowerStr (ws₁ ++ m ++ ws₂)) ++ _ = trimStr (toLowerStr m) ++ _
    simp only [toLowerStr, List.map_append]
    rw [trimStr_ws_append (List.map Char.toLower m) (List.map Char.toLower ws₁)
      (List.map Char.toLower ws₂) (toLowerStr_ws ws₁ h₁) (toLowerStr_ws ws₂ h₂)]

theorem generateCacheKey_insensitive_witness :
    (["b", "a"] : List String).Perm ["a", "b"] ∧
    toLowerStr "Hi".toList = toLowerStr "hI".toList ∧
    (∀ c ∈ [' '], isWsChar c = true) ∧
    generateCacheKey { message := some "Hi".toList, widgetId := some "w1", agents := ["b", "a"] } =
      generateCacheKey { message := some "hI".toList, widgetId := some "w1", agents := ["a", "b"] } ∧
    generateCacheKey qHiPadded = generateCacheKey qHi := by
  refine ⟨by decide, by decide, by decide, ?_, ?_⟩
  · exact (generateCacheKey_insensitive.1 (some "Hi".toList) (some "w1") ["b", "a"] ["a", "b"]
        (by decide)).trans
      (generateCacheKey_insensitive.2.1 "Hi".toList "hI".toList (some "w1") ["a", "b"]
        (by decide))
  · exact generateCacheKey_insensitive.2.2 "hi".toList [' '] [' '] (some "w1") []
      (by decide) (by decide)

/-- Claim C5 (counterexample): at age exactly equal to the 5-minute TTL
(now - timestamp = 300000) the lookup still returns the stored response,
refuting the claim that a hit occurs exactly when the age is strictly
below the TTL. -/
theorem getCachedResponse_boundary_cex :
    getCachedResponse 300000 cacheOne qHi = (some respCached, cacheOne) ∧
    ¬((300000 : ℤ) - 0 < 300000) :=
  ⟨rfl, by decide⟩

/-- Claim C5 (amended): for an entry stored under the normalized cache
key, the lookup returns the stored response exactly when the entry's age
is at most the 5-minute TTL (300000 ms); when the age strictly exceeds
the TTL the lookup returns null and deletes the expired entry in that
same lookup. -/
theorem getCachedResponse_ttl (now : ℤ) (cache : Cache) (q : QueryData) (e : CacheEntry)
    (h : lookupKey cache (generateCacheKey q) = some e) :
    (now - e.timestamp ≤ 300000 →
        getCachedResponse now cache q = (some e.response, cache)) ∧
    (300000 < now - e.timestamp →
        getCachedResponse now cache q = (none, eraseKey cache (generateCacheKey q)) ∧
        lookupKey (eraseKey cache (generateCacheKey q)) (generateCacheKey q) = none) := by
  constructor
  · intro hle
    have hnl : ¬(cacheExpiry < now - e.timestamp) := not_lt.mpr hle
    unfold getCachedResponse
    simp only [h]
    rw [if_neg hnl]
  · intro hgt
    have hl : cacheExpiry < now - e.timestamp := hgt
    refine ⟨?_, lookupKey_eraseKey cache (generateCacheKey q)⟩
    unfold getCachedResponse
    simp only [h]
    rw [if_pos hl]

theorem getCachedResponse_ttl_witness :
    lookupKey cacheOne (generateCacheKey qHi) =
      some { response := respCached, timestamp := 0, queryData := qHi } ∧
    ((100000 : ℤ) - 0 ≤ 300000) ∧
    getCachedResponse 100000 cacheOne qHi = (some respCached, cacheOne) := by
  refine ⟨rfl, by decide, ?_⟩
  exact (getCachedResponse_ttl 100000 cacheOne qHi
    { response := respCached, timestamp := 0, queryData := qHi } rfl).1 (by decide)

/-- Claim C2: executeParallelQueries settles every branch independently —
each found-and-online agent in the plan is dispatched regardless of
sibling failures — rejects with the aggregate error "All agents failed to
respond" exactly when every agent call fails (in which case no synthesis
occurs), and otherwise synthesizes exactly the successful results, the
failed agents being excluded from synthesis. -/
theorem executeParallelQueries_spec (oracle : String → Except String RawAgentResponse)
    (agents : List (String × Agent)) (rt : ℚ) (planAgents : List String) :
    ((executeParallelQueries oracle agents rt planAgents).1 =
        Except.error "All agents failed to respond" ↔
      ∀ a ∈ planAgents, callOk oracle agents rt a = false) ∧
    (parallelSuccesses oracle agents rt planAgents ≠ [] →
      (executeParallelQueries oracle agents rt planAgents).1 =
        Except.ok (synthesizeResponses agents (parallelSuccesses oracle agents rt planAgents))) ∧
    (∀ r ∈ parallelSuccesses oracle agents rt planAgents,
      r.agentId ∈ planAgents ∧ callOk oracle agents rt r.agentId = true) ∧
    (executeParallelQueries oracle agents rt planAgents).2 =
      planAgents.filter (reachesAgentCall agents) := by
  refine ⟨?_, ?_, fun r hr => mem_parallelSuccesses hr, ?_⟩
  · constructor
    · intro h
      rw [← parallelSuccesses_eq_nil_iff]
      by_contra hne
      unfold executeParallelQueries at h
      rw [if_neg (fun hc => hne (isEmpty_iff_eq_nil.mp hc))] at h
      simp at h
    · intro h
      have hnil : parallelSuccesses oracle agents rt planAgents = [] :=
        (parallelSuccesses_eq_nil_iff oracle agents rt planAgents).mpr h
      unfold executeParallelQueries
      rw [if_pos (isEmpty_iff_eq_nil.mpr hnil)]
  · intro hne
    unfold executeParallelQueries
    rw [if_neg (fun hc => hne (isEmpty_iff_eq_nil.mp hc))]
  · unfold executeParallelQueries
    by_cases he : (parallelSuccesses oracle agents rt planAgents).isEmpty = true
    · rw [if_pos he]
      exact dispatchedAgents_eq_filter oracle agents rt planAgents
    · rw [if_neg he]
      exact dispatchedAgents_eq_filter oracle agents rt planAgents

theorem executeParallelQueries_spec_witness :
    (∀ a ∈ (["a", "b"] : List String), callOk failOracle agentsOnlineA 0 a = false) ∧
    (executeParallelQueries failOracle agentsOnlineA 0 ["a", "b"]).1 =
      Except.error "All agents failed to respond" ∧
    (executeParallelQueries failOracle agentsOnlineA 0 ["a", "b"]).2 = ["a"] := by
  refine ⟨by decide, ?_, ?_⟩
  · exact (executeParallelQueries_spec failOracle agentsOnlineA 0 ["a", "b"]).1.mpr (by decide)
  · have h := (executeParallelQueries_spec failOracle agentsOnlineA 0 ["a", "b"]).2.2.2
    rw [h]
    decide

/-- Claim C7: a malformed query — missing message, missing widgetId, or a
message trimming to the empty string — is rejected by validateQuery, no
agent call is dispatched for it, and the failure is caught at the
processQuery boundary and delivered as an error response rather than an
uncaught exception (the cache is also left untouched). -/
theorem processQuery_invalid_query (cfg : Config) (now : ℤ)
    (agents : List (String × Agent)) (patterns : List (String × List (List Char)))
    (caps : List (String × List String)) (oracle : String → Except String RawAgentResponse)
    (rt : ℚ) (cache : Cache) (q : QueryData)
    (h : q.message = none ∨ q.widgetId = none ∨ ∃ m, q.message = some m ∧ trimStr m = []) :
    validateQuery q = false ∧
    processQuery cfg now agents patterns caps oracle rt cache q =
      { widgetId := q.widgetId, response := errorResponse "Invalid query format",
        dispatched := [], cache := cache } := by
  have hv : validateQuery q = false := by
    rcases h with h | h | ⟨m, hm, ht⟩
    · simp [validateQuery, h]
    · simp [validateQuery, h]
    · simp [validateQuery, hm, ht]
  refine ⟨hv, ?_⟩
  unfold processQuery
  rw [if_pos hv]

theorem processQuery_invalid_query_witness :
    (∃ m, qBlank.message = some m ∧ trimStr m = []) ∧
    processQuery defaultConfig 0 [] defaultPatterns defaultCaps failOracle 0 [] qBlank =
      { widgetId := some "w1", response := errorResponse "Invalid query format",
        dispatched := [], cache := [] } := by
  refine ⟨⟨"   ".toList, rfl, rfl⟩, ?_⟩
  have h := (processQuery_invalid_query defaultConfig 0 [] defaultPatterns defaultCaps
    failOracle 0 [] qBlank (Or.inr (Or.inr ⟨"   ".toList, rfl, rfl⟩))).2
  rw [h]
  rfl

/-- Claim C3 (counterexample): the query "help" contains the trigger
keyword "help" of category "knowledge", yet recommendAgents returns the
fallback pair including "workday", whose capability list does not contain
"knowledge" — so the returned agents need not all serve the matched
category C. -/
theorem recommendAgents_category_cex :
    recommendAgents defaultPatterns defaultCaps "help".toList [] = ["workday", "policy"] ∧
    ("knowledge", ["how to".toList, "what is".toList, "where can i".toList,
      "documentation".toList, "manual".toList, "guide".toList, "help".toList,
      "information".toList]) ∈ defaultPatterns ∧
    includesStr (toLowerStr "help".toList) "help".toList = true ∧
    ("workday", ["hr", "vacation", "payroll", "benefits"]) ∈ defaultCaps ∧
    "knowledge" ∉ (["hr", "vacation", "payroll", "benefits"] : List String) :=
  ⟨rfl, by decide, rfl, by decide, by decide⟩

/-- Claim C3 (amended): recommendAgents with no exclusions always returns
a non-empty list of at most three agent ids; the ranked score list it is
cut from is sorted by descending keyword-hit score; and whenever the
score map is non-empty every returned agent serves at least one category
whose keywords match the query (not necessarily the particular matched
category C). -/
theorem recommendAgents_ranking (patterns : List (String × List (List Char)))
    (caps : List (String × List String)) (message : List Char) :
    recommendAgents patterns caps message [] ≠ [] ∧
    (recommendAgents patterns caps message []).length ≤ 3 ∧
    List.Sorted scoreGE (rankedScores patterns caps message []) ∧
    (computeScores patterns caps (toLowerStr message) [] ≠ [] →
      ∀ a ∈ recommendAgents patterns caps message [],
        ∃ cat kws, (cat, kws) ∈ patterns ∧ 0 < matchCount kws (toLowerStr message) ∧
          ∃ capsA, (a, capsA) ∈ caps ∧ capsA.contains cat = true) :=
  ⟨recommendAgents_ne_nil patterns caps message,
   recommendAgents_length_le patterns caps message [],
   rankedScores_sorted patterns caps message [],
   fun hsc _ ha => recommendAgents_mem_capability hsc ha⟩

theorem recommendAgents_ranking_witness :
    computeScores defaultPatterns defaultCaps (toLowerStr "vacation".toList) [] ≠ [] ∧
    "workday" ∈ recommendAgents defaultPatterns defaultCaps "vacation".toList [] ∧
    (∃ cat kws, (cat, kws) ∈ defaultPatterns ∧
      0 < matchCount kws (toLowerStr "vacation".toList) ∧
      ∃ capsA, ("workday", capsA) ∈ defaultCaps ∧ capsA.contains cat = true) := by
  refine ⟨by decide, by decide, ?_⟩
  exact (recommendAgents_ranking defaultPatterns defaultCaps "vacation".toList).2.2.2
    (by decide) "workday" (by decide)

/-- Claim C1 (counterexample): with the single agent "workday" offline and
the query "vacation" (empty caller agent list, so the smart-routing path
runs), createRoutingPlan returns a plan whose agent list contains the
offline agent — the offline-exclusion invariant fails on the
smart-routing path, which never consults availability. -/
theorem createRoutingPlan_offline_smart_cex :
    createRoutingPlan defaultConfig offlineWorkday defaultPatterns defaultCaps qVacation =
      Except.ok { strategy := "smart", agents := ["workday"], parallel := true,
                  timeout := 30000 } ∧
    lookupAgent offlineWorkday "workday" =
      some { name := "Workday", status := AgentStatus.offline } :=
  ⟨rfl, rfl⟩

/-- Claim C1 (amended): on the caller-specified path (smart routing
enabled and a non-empty caller agent list) every agent in the produced
plan is present in the agent map with status online — in particular no
offline agent is a member — and when zero eligible agents remain the plan
fails fast with the availability error "No available agents for this
query"; any plan-creation failure is caught and delivered as an error
response with no dispatch to the dispatcher.  The smart-routing path does
not filter by availability (see the counterexample). -/
theorem createRoutingPlan_availability (cfg : Config) (now : ℤ)
    (agents : List (String × Agent)) (patterns : List (String × List (List Char)))
    (caps : List (String × List String)) (oracle : String → Except String RawAgentResponse)
    (rt : ℚ) (cache : Cache) (q : QueryData)
    (hsr : cfg.enableSmartRouting = true) (hag : q.agents ≠ []) :
    (∀ plan, createRoutingPlan cfg agents patterns caps q = Except.ok plan →
        ∀ a ∈ plan.agents, ∃ ag, lookupAgent agents a = some ag ∧
          ag.status = AgentStatus.online) ∧
    (q.agents.filter (availableFor agents) = [] →
        createRoutingPlan cfg agents patterns caps q =
          Except.error "No available agents for this query") ∧
    (∀ e, validateQuery q = true →
        lookupKey cache (generateCacheKey q) = none →
        createRoutingPlan cfg agents patterns caps q = Except.error e →
        processQuery cfg now agents patterns caps oracle rt cache q =
          { widgetId := q.widgetId, response := errorResponse e,
            dispatched := [], cache := cache }) := by
  have hcond : ¬(cfg.enableSmartRouting = false ∨ q.agents.isEmpty = true) := by
    rintro (hc | hc)
    · rw [hsr] at hc
      cases hc
    · exact hag (isEmpty_iff_eq_nil.mp hc)
  refine ⟨?_, ?_, ?_⟩
  · intro plan hplan a ha
    unfold createRoutingPlan at hplan
    rw [if_neg hcond] at hplan
    by_cases hemp : (q.agents.filter (availableFor agents)).isEmpty = true
    · rw [if_pos hemp] at hplan
      simp at hplan
    · rw [if_neg hemp] at hplan
      obtain rfl := Except.ok.inj hplan
      have hpred := (List.mem_filter.mp ha).2
      unfold availableFor at hpred
      cases hla : lookupAgent agents a with
      | none =>
        rw [hla] at hpred
        simp at hpred
      | some ag =>
        rw [hla] at hpred
        exact ⟨ag, rfl, of_decide_eq_true hpred⟩
  · intro hfil
    unfold createRoutingPlan
    rw [if_neg hcond]
    rw [if_pos (by rw [hfil]; rfl)]
  · intro e hval hmiss hplan
    unfold processQuery
    rw [if_neg (by rw [hval]; simp)]
    have hget : getCachedResponse now cache q = (none, cache) :=
      getCachedResponse_of_lookup_none hmiss
    have hif : (if cfg.enableCaching = true then getCachedResponse now cache q
        else (none, cache)) = (none, cache) := by
      by_cases hec : cfg.enableCaching = true
      · rw [if_pos hec, hget]
      · rw [if_neg hec]
    simp only [hif, hplan]

theorem createRoutingPlan_availability_witness :
    defaultConfig.enableSmartRouting = true ∧
    qGhost.agents ≠ [] ∧
    validateQuery qGhost = true ∧
    processQuery defaultConfig 0 ghostAgents defaultPatterns defaultCaps failOracle 0 []
        qGhost =
      { widgetId := some "w1",
        response := errorResponse "No available agents for this query",
        dispatched := [], cache := [] } := by
  refine ⟨rfl, by decide, rfl, ?_⟩
  exact (createRoutingPlan_availability defaultConfig 0 ghostAgents defaultPatterns
    defaultCaps failOracle 0 [] qGhost rfl (by decide)).2.2
    "No available agents for this query" rfl rfl rfl

/-- Claim C6: the only gate inserting into the response cache is the
shouldCacheResponse guard of processQuery — a non-error response with
confidence strictly above 0.7 — so any cache whose entries all satisfy
that predicate still satisfies it after processQuery; the guard is
exactly the non-error, confidence-above-0.7 predicate; and insertion has
no capacity bound: cacheResponse always stores the new entry under its
key, whatever the cache size. -/
theorem responseCache_invariant (cfg : Config) (now : ℤ)
    (agents : List (String × Agent)) (patterns : List (String × List (List Char)))
    (caps : List (String × List String)) (oracle : String → Except String RawAgentResponse)
    (rt : ℚ) (cache : Cache) (q : QueryData)
    (h : ∀ p ∈ cache, goodResponse p.2.response) :
    (∀ p ∈ (processQuery cfg now agents patterns caps oracle rt cache q).cache,
        goodResponse p.2.response) ∧
    (∀ r : Response, shouldCacheResponse r = true ↔ goodResponse r) ∧
    (∀ (n : ℤ) (c : Cache) (qd : QueryData) (r : Response),
        lookupKey (cacheResponse n c qd r) (generateCacheKey qd) =
          some { response := r, timestamp := n, queryData := qd }) := by
  refine ⟨?_, shouldCacheResponse_iff, fun n c qd r => lookupKey_cacheResponse n c qd r⟩
  intro p hp
  unfold processQuery at hp
  by_cases hv : validateQuery q = false
  · rw [if_pos hv] at hp
    exact h p hp
  · rw [if_neg hv] at hp
    rcases hlc : (if cfg.enableCaching = true then getCachedResponse now cache q
        else (none, cache)) with ⟨o, cache1⟩
    have hc1 : ∀ p' ∈ cache1, p' ∈ cache := by
      intro p' hp'
      by_cases hec : cfg.enableCaching = true
      · rw [if_pos hec] at hlc
        have hsub : cache1 = (getCachedResponse now cache q).2 := by rw [hlc]
        exact getCachedResponse_snd_subset (hsub ▸ hp')
      · rw [if_neg hec] at hlc
        injection hlc with ho hcq
        rw [← hcq] at hp'
        exact hp'
    simp only [hlc] at hp
    cases o with
    | some r =>
      exact h p (hc1 p hp)
    | none =>
      cases hplan : createRoutingPlan cfg agents patterns caps q with
      | error e =>
        simp only [hplan] at hp
        exact h p (hc1 p hp)
      | ok plan =>
        simp only [hplan] at hp
        rcases hexec : executeQueryPlan oracle agents rt plan with ⟨res, disp⟩
        simp only [hexec] at hp
        cases res with
        | error e =>
          exact h p (hc1 p hp)
        | ok r =>
          have hp' : p ∈ (if (cfg.enableCaching && shouldCacheResponse r) = true then
              cacheResponse now cache1 q r else cache1) := hp
          by_cases hsc : (cfg.enableCaching && shouldCacheResponse r) = true
          · rw [if_pos hsc] at hp'
            have hmem := mem_setKey (mem_cleanExpiredCache hp')
            rcases hmem with hnew | hold
            · have hgood : goodResponse r := by
                simp only [Bool.and_eq_true] at hsc
                exact (shouldCacheResponse_iff r).mp hsc.2
              rw [hnew]
              exact hgood
            · exact h p (hc1 p hold)
          · rw [if_neg hsc] at hp'
            exact h p (hc1 p hp')

theorem responseCache_invariant_witness :
    (∀ p ∈ ([] : Cache), goodResponse p.2.response) ∧
    (∀ p ∈ (processQuery defaultConfig 0 [] defaultPatterns defaultCaps failOracle 0 []
        qHi).cache, goodResponse p.2.response) := by
  refine ⟨by simp, ?_⟩
  exact (responseCache_invariant defaultConfig 0 [] defaultPatterns defaultCaps failOracle
    0 [] qHi (by simp)).1

end ConvergeAI
